import Mathlib

/-!
Shallow embedding of the `jwk-box` JWK client (src/lib.rs, src/error.rs).

Modeling conventions:
- `DateTime<Utc>` instants and `chrono::Duration` values are `Int` (seconds).
- Every call to `Utc::now()` during one top-level operation is modeled as the
  single instant `now` passed to that operation.
- The external collaborators (`reqwest` fetch + JSON parse,
  `RS256PublicKey::from_components`, `Token::decode_metadata`,
  `verify_token`) are parameters: an `ExternalEnv` record of pure functions,
  and a list of pending fetch outcomes consumed one per refresh invocation.
  Their error payloads are modeled as `String`.
- `HashMap<String, PublicKey>` is an association list with last-insert-wins
  insertion (`assocInsert`) and key lookup (`assocGet`).
- `validate_token` additionally returns a ghost trace (`List VEvent`) of the
  refresh invocations and verification attempts it performed, in order; the
  trace never influences control flow.
-/

set_option autoImplicit false

namespace JwkBox

/-- The error enum of src/error.rs (`JwkClientErr`): `ConnectionError` wraps a
`reqwest::Error`, `ParseError` wraps a `jwt_simple::Error`, `Other` carries a
message string. External error payloads are modeled as strings. -/
inductive JwkClientErr where
  | ConnectionError (msg : String)
  | Other (msg : String)
  | ParseError (msg : String)
deriving DecidableEq

/-- A cached public key plus its activation instant (struct `PublicKey`).
The opaque `RS256PublicKey` handle is the type parameter `K`. -/
structure PublicKey (K : Type) where
  key : K
  not_before : Option Int
deriving DecidableEq

/-- `PublicKey::is_valid`: true iff `not_before` is `None` or `≤ now`. -/
def PublicKey.is_valid {K : Type} (pk : PublicKey K) (now : Int) : Bool :=
  match pk.not_before with
  | none => true
  | some nbf => decide (nbf ≤ now)

/-- `PublicKey::valid_key`: the key if currently valid, `none` otherwise. -/
def PublicKey.valid_key {K : Type} (pk : PublicKey K) (now : Int) : Option K :=
  if pk.is_valid now then some pk.key else none

/-- Association-list lookup, modeling `HashMap::get`. -/
def assocGet {α : Type} : List (String × α) → String → Option α
  | [], _ => none
  | (k, v) :: rest, key => if k = key then some v else assocGet rest key

/-- Association-list insert with overwrite, modeling `HashMap::insert`. -/
def assocInsert {α : Type} : List (String × α) → String → α → List (String × α)
  | [], key, v => [(key, v)]
  | (k, w) :: rest, key, v =>
    if k = key then (key, v) :: rest else (k, w) :: assocInsert rest key v

/-- The client state (struct `JwkClient`). -/
structure JwkClient (K : Type) where
  jwks_uri : String
  issuer : String
  audience : String
  public_keys : List (String × PublicKey K)
  auto_refresh_interval : Int
  retry_rate_limit : Int
  last_refresh : Option Int
  last_retry : Option Int
deriving DecidableEq

/-- `JwkClient::new`: empty key set, 1-hour refresh interval, 5-minute retry
rate limit, no refresh or retry recorded yet. -/
def JwkClient.new {K : Type} (jwks_uri issuer audience : String) : JwkClient K :=
  { jwks_uri := jwks_uri
    issuer := issuer
    audience := audience
    public_keys := []
    auto_refresh_interval := 3600
    retry_rate_limit := 300
    last_refresh := none
    last_retry := none }

/-- `JwkClient::set_auto_refresh_interval`. -/
def JwkClient.set_auto_refresh_interval {K : Type} (c : JwkClient K) (d : Int) :
    JwkClient K :=
  { c with auto_refresh_interval := d }

/-- `JwkClient::set_retry_rate_limit`. -/
def JwkClient.set_retry_rate_limit {K : Type} (c : JwkClient K) (d : Int) :
    JwkClient K :=
  { c with retry_rate_limit := d }

/-- `JwkClient::keys_are_stale`: no proactive refresh yet, or the last one is
strictly older than `auto_refresh_interval`. -/
def JwkClient.keys_are_stale {K : Type} (c : JwkClient K) (now : Int) : Bool :=
  match c.last_refresh with
  | some t => decide (now - t > c.auto_refresh_interval)
  | none => true

/-- `JwkClient::can_retry_on_failure`: no reactive refresh yet, or the last
one is strictly older than `retry_rate_limit`. -/
def JwkClient.can_retry_on_failure {K : Type} (c : JwkClient K) (now : Int) : Bool :=
  match c.last_retry with
  | some t => decide (now - t > c.retry_rate_limit)
  | none => true

/-- One raw key record of the fetched key-set document (struct `JwkRaw`),
with the base64url fields already decoded to byte sequences. -/
structure JwkRaw where
  key_id : String
  not_before : Option Int
  exponent : List Nat
  modulus : List Nat
deriving DecidableEq

/-- Outcome of one `reqwest::get(jwks_uri).json::<JwkRawArray>()` round trip:
the document's `keys` on success, a transport/JSON error payload otherwise. -/
abbrev FetchResult : Type := Except String (List JwkRaw)

/-- The external collaborators of the client, as pure functions. -/
structure ExternalEnv (K T : Type) where
  /-- `RS256PublicKey::from_components(modulus, exponent)`. -/
  from_components : List Nat → List Nat → Except String K
  /-- `Token::decode_metadata(token)` followed by `.key_id()`: the optional
  key id on success, a `jwt_simple` decode error otherwise. -/
  decode_metadata : String → Except String (Option String)
  /-- `key.verify_token::<T>(token, options)` with the issuer and audience
  constraints from the options. -/
  verify_token : K → String → String → String → Except String T

/-- Lift a `jwt_simple` result into `JwkClientErr` (the `From` impl used by
`?` in the Rust code: `jwt_simple::Error` becomes `ParseError`). -/
def liftJwt {T : Type} : Except String T → Except JwkClientErr T
  | .error e => .error (.ParseError e)
  | .ok v => .ok v

/-- The key-construction loop inside `refresh_public_keys`: convert each raw
record into a `(kid, PublicKey)` pair via `from_components`, failing as a
whole at the first record whose key material fails to construct. -/
def buildPublicKeys {K T : Type} (env : ExternalEnv K T) :
    List JwkRaw → Except JwkClientErr (List (String × PublicKey K))
  | [] => .ok []
  | jwk :: rest =>
    match env.from_components jwk.modulus jwk.exponent with
    | .error e => .error (.ParseError e)
    | .ok key =>
      match buildPublicKeys env rest with
      | .error e => .error e
      | .ok tail => .ok ((jwk.key_id, { key := key, not_before := jwk.not_before }) :: tail)

/-- `collect` of the pairs into a `HashMap` (last duplicate key id wins). -/
def toKeyMap {K : Type} (pairs : List (String × PublicKey K)) :
    List (String × PublicKey K) :=
  pairs.foldl (fun m p => assocInsert m p.1 p.2) []

/-- `JwkClient::refresh_public_keys` applied to one fetch outcome: on any
failure (transport/parse, or any single key failing to construct) the client
is returned unchanged; on success the whole key map is replaced and
`last_refresh` is set to `now`. -/
def JwkClient.refresh_public_keys {K T : Type} (env : ExternalEnv K T)
    (c : JwkClient K) (now : Int) (fetch : FetchResult) :
    Except JwkClientErr Unit × JwkClient K :=
  match fetch with
  | .error e => (.error (.ConnectionError e), c)
  | .ok keys =>
    match buildPublicKeys env keys with
    | .error e => (.error e, c)
    | .ok pairs =>
      (.ok (), { c with public_keys := toKeyMap pairs, last_refresh := some now })

/-- `JwkClient::get_valid_key`: look the key id up and keep it only if its
activation window has opened. Pure: no state is read besides `c`, none is
returned. -/
def JwkClient.get_valid_key {K : Type} (c : JwkClient K) (key_id : String)
    (now : Int) : Option K :=
  match assocGet c.public_keys key_id with
  | none => none
  | some pk => pk.valid_key now

/-- The error value built at `lib.rs:172` when the token has no `kid`. -/
def missingKidErr : JwkClientErr :=
  .Other "token is missing public key id `kid`"

/-- The error value built at `lib.rs:175` when no valid key matches the `kid`. -/
def unknownKidErr : JwkClientErr :=
  .Other "token's public key id `kid` not found"

/-- `JwkClient::validate_token_impl`: decode the metadata, extract the key id,
look the key up, and hand over to external verification. -/
def JwkClient.validate_token_impl {K T : Type} (env : ExternalEnv K T)
    (c : JwkClient K) (token : String) (now : Int) : Except JwkClientErr T :=
  match env.decode_metadata token with
  | .error e => .error (.ParseError e)
  | .ok none => .error missingKidErr
  | .ok (some key_id) =>
    match c.get_valid_key key_id now with
    | none => .error unknownKidErr
    | some key => liftJwt (env.verify_token key token c.issuer c.audience)

/-- Ghost trace events of one `validate_token` call, in execution order. -/
inductive VEvent where
  | proactive (ok : Bool)
  | attempt (ok : Bool)
  | reactive (ok : Bool)
deriving DecidableEq

/-- Number of step-1 (proactive) refresh invocations recorded in a trace. -/
def countProactive (evs : List VEvent) : Nat :=
  (evs.filter fun e => match e with | .proactive _ => true | _ => false).length

/-- Number of step-3 (reactive) refresh invocations recorded in a trace. -/
def countReactive (evs : List VEvent) : Nat :=
  (evs.filter fun e => match e with | .reactive _ => true | _ => false).length

/-- Number of verification attempts recorded in a trace. -/
def countAttempts (evs : List VEvent) : Nat :=
  (evs.filter fun e => match e with | .attempt _ => true | _ => false).length

/-- Whether an `Except` is a success. -/
def exceptOk {ε α : Type} : Except ε α → Bool
  | .ok _ => true
  | .error _ => false

instance exceptDecEq {ε α : Type} [DecidableEq ε] [DecidableEq α] :
    DecidableEq (Except ε α) := fun a b =>
  match a, b with
  | .ok x, .ok y =>
    if h : x = y then .isTrue (congrArg Except.ok h)
    else .isFalse (fun k => h (Except.ok.inj k))
  | .error x, .error y =>
    if h : x = y then .isTrue (congrArg Except.error h)
    else .isFalse (fun k => h (Except.error.inj k))
  | .ok _, .error _ => .isFalse (fun k => Except.noConfusion k)
  | .error _, .ok _ => .isFalse (fun k => Except.noConfusion k)

/-- The outcome of one `validate_token` call: the returned result, the client
state after the call, the fetch outcomes not yet consumed, and the ghost
trace. -/
structure ValidateRun (K T : Type) where
  result : Except JwkClientErr T
  client : JwkClient K
  fetches : List FetchResult
  trace : List VEvent
deriving DecidableEq

/-- Consume the next pending fetch outcome; an exhausted list behaves as a
transport failure (a modeling artifact no claim depends on). -/
def nextFetch : List FetchResult → FetchResult × List FetchResult
  | [] => (.error "no response", [])
  | f :: rest => (f, rest)

/-- Lines 143–152 of `validate_token`: the first attempt, the reactive-retry
decision, the reactive refresh plus `last_retry` stamp, and the single retry.
`evs0` is the trace accumulated by step 1. -/
def validate_token_body {K T : Type} (env : ExternalEnv K T) (c : JwkClient K)
    (token : String) (now : Int) (fetches : List FetchResult)
    (evs0 : List VEvent) : ValidateRun K T :=
  match JwkClient.validate_token_impl env c token now with
  | .ok v => ⟨.ok v, c, fetches, evs0 ++ [.attempt true]⟩
  | .error e0 =>
    if c.can_retry_on_failure now then
      match nextFetch fetches with
      | (f, rest) =>
        match JwkClient.refresh_public_keys env c now f with
        | (.error e, c2) =>
          ⟨.error e, c2, rest, evs0 ++ [.attempt false, .reactive false]⟩
        | (.ok _, c2) =>
          let c3 := { c2 with last_retry := some now }
          let r2 := JwkClient.validate_token_impl env c3 token now
          ⟨r2, c3, rest, evs0 ++ [.attempt false, .reactive true, .attempt (exceptOk r2)]⟩
    else ⟨.error e0, c, fetches, evs0 ++ [.attempt false]⟩

/-- `JwkClient::validate_token`: refresh proactively when the keys are stale
(a failure there is returned at once), then run the attempt/retry body. -/
def JwkClient.validate_token {K T : Type} (env : ExternalEnv K T)
    (c : JwkClient K) (token : String) (now : Int)
    (fetches : List FetchResult) : ValidateRun K T :=
  if c.keys_are_stale now then
    match nextFetch fetches with
    | (f, rest) =>
      match JwkClient.refresh_public_keys env c now f with
      | (.error e, c1) => ⟨.error e, c1, rest, [.proactive false]⟩
      | (.ok _, c1) => validate_token_body env c1 token now rest [.proactive true]
  else
    validate_token_body env c token now fetches []

/-! ## Concrete fixtures

A concrete instantiation of the external collaborators (key handles and
claims are both `Nat`) and a few concrete client states, used to evaluate
the theorems on closed inputs. -/

def testEnv : ExternalEnv Nat Nat :=
  { from_components := fun n e =>
      if n = [0] then .error "bad modulus" else .ok (n.length + e.length)
    decode_metadata := fun tok =>
      if tok = "nokid" then .ok none
      else if tok = "garbled" then .error "cannot decode"
      else .ok (some tok)
    verify_token := fun key tok _ _ =>
      if tok = "badsig" then .error "signature mismatch" else .ok key }

/-- A client refreshed proactively at instant 0, never reactively. -/
def c1ex : JwkClient Nat :=
  { jwks_uri := "https://idp.example/jwks"
    issuer := "https://idp.example"
    audience := "my-service"
    public_keys := []
    auto_refresh_interval := 3600
    retry_rate_limit := 300
    last_refresh := some 0
    last_retry := none }

/-- A key entry that activates only at instant 100. -/
def kFuture : PublicKey Nat := { key := 7, not_before := some 100 }

/-- A client caching only the future-activated entry under kid "k1". -/
def cWin : JwkClient Nat := { c1ex with public_keys := [("k1", kFuture)] }

/-- A client that has never been refreshed (stale from construction). -/
def cStale : JwkClient Nat := { c1ex with last_refresh := none }

/-! ## Helper lemmas -/

theorem refresh_error_frame {K T : Type} (env : ExternalEnv K T) (c : JwkClient K)
    (now : Int) (f : FetchResult) (e : JwkClientErr)
    (h : (JwkClient.refresh_public_keys env c now f).1 = .error e) :
    (JwkClient.refresh_public_keys env c now f).2 = c := by
  cases f with
  | error e' => rfl
  | ok keys =>
    cases hb : buildPublicKeys env keys with
    | error e' => simp [JwkClient.refresh_public_keys, hb]
    | ok pairs => simp [JwkClient.refresh_public_keys, hb] at h

theorem refresh_ok_shape {K T : Type} (env : ExternalEnv K T) (c : JwkClient K)
    (now : Int) (f : FetchResult) (u : Unit)
    (h : (JwkClient.refresh_public_keys env c now f).1 = .ok u) :
    ∃ keys pairs, f = .ok keys ∧ buildPublicKeys env keys = .ok pairs ∧
      (JwkClient.refresh_public_keys env c now f).2 =
        { c with public_keys := toKeyMap pairs, last_refresh := some now } := by
  cases f with
  | error e' => simp [JwkClient.refresh_public_keys] at h
  | ok keys =>
    cases hb : buildPublicKeys env keys with
    | error e' => simp [JwkClient.refresh_public_keys, hb] at h
    | ok pairs =>
      exact ⟨keys, pairs, rfl, hb, by simp [JwkClient.refresh_public_keys, hb]⟩

theorem refresh_preserves {K T : Type} (env : ExternalEnv K T) (c : JwkClient K)
    (now : Int) (f : FetchResult) :
    (JwkClient.refresh_public_keys env c now f).2.last_retry = c.last_retry ∧
    (JwkClient.refresh_public_keys env c now f).2.retry_rate_limit = c.retry_rate_limit ∧
    (JwkClient.refresh_public_keys env c now f).2.auto_refresh_interval = c.auto_refresh_interval ∧
    (JwkClient.refresh_public_keys env c now f).2.issuer = c.issuer ∧
    (JwkClient.refresh_public_keys env c now f).2.audience = c.audience := by
  cases f with
  | error e' => exact ⟨rfl, rfl, rfl, rfl, rfl⟩
  | ok keys =>
    cases hb : buildPublicKeys env keys with
    | error e' => simp [JwkClient.refresh_public_keys, hb]
    | ok pairs => simp [JwkClient.refresh_public_keys, hb]

theorem body_cases {K T : Type} (env : ExternalEnv K T) (c : JwkClient K)
    (token : String) (now : Int) (fetches : List FetchResult) (evs0 : List VEvent) :
    (∃ v, JwkClient.validate_token_impl env c token now = .ok v ∧
      validate_token_body env c token now fetches evs0 =
        ⟨.ok v, c, fetches, evs0 ++ [.attempt true]⟩) ∨
    (∃ e0, JwkClient.validate_token_impl env c token now = .error e0 ∧
      c.can_retry_on_failure now = false ∧
      validate_token_body env c token now fetches evs0 =
        ⟨.error e0, c, fetches, evs0 ++ [.attempt false]⟩) ∨
    (∃ e0 e, JwkClient.validate_token_impl env c token now = .error e0 ∧
      c.can_retry_on_failure now = true ∧
      (JwkClient.refresh_public_keys env c now (nextFetch fetches).1).1 = .error e ∧
      validate_token_body env c token now fetches evs0 =
        ⟨.error e, c, (nextFetch fetches).2, evs0 ++ [.attempt false, .reactive false]⟩) ∨
    (∃ e0 c2, JwkClient.validate_token_impl env c token now = .error e0 ∧
      c.can_retry_on_failure now = true ∧
      JwkClient.refresh_public_keys env c now (nextFetch fetches).1 = (.ok (), c2) ∧
      validate_token_body env c token now fetches evs0 =
        ⟨JwkClient.validate_token_impl env { c2 with last_retry := some now } token now,
         { c2 with last_retry := some now }, (nextFetch fetches).2,
         evs0 ++ [.attempt false, .reactive true,
           .attempt (exceptOk (JwkClient.validate_token_impl env
             { c2 with last_retry := some now } token now))]⟩) := by
  cases himpl : JwkClient.validate_token_impl env c token now with
  | ok v =>
    exact Or.inl ⟨v, rfl, by simp [validate_token_body, himpl]⟩
  | error e0 =>
    cases hcr : c.can_retry_on_failure now with
    | false =>
      exact Or.inr (Or.inl ⟨e0, rfl, rfl, by simp [validate_token_body, himpl, hcr]⟩)
    | true =>
      rcases hnf : nextFetch fetches with ⟨f, rest⟩
      rcases hr : JwkClient.refresh_public_keys env c now f with ⟨r, c2⟩
      cases r with
      | error e =>
        refine Or.inr (Or.inr (Or.inl ⟨e0, e, rfl, rfl, ?_, ?_⟩))
        · rfl
        · have hframe : c2 = c := by
            have := refresh_error_frame env c now f e (by rw [hr])
            rw [hr] at this; exact this
          simp [validate_token_body, himpl, hcr, hnf, hr, hframe]
      | ok u =>
        cases u
        refine Or.inr (Or.inr (Or.inr ⟨e0, c2, rfl, rfl, ?_, ?_⟩))
        · rfl
        · simp [validate_token_body, himpl, hcr, hnf, hr]

theorem validate_not_stale {K T : Type} (env : ExternalEnv K T) (c : JwkClient K)
    (token : String) (now : Int) (fetches : List FetchResult)
    (h : c.keys_are_stale now = false) :
    JwkClient.validate_token env c token now fetches =
      validate_token_body env c token now fetches [] := by
  simp [JwkClient.validate_token, h]

theorem validate_stale_fail {K T : Type} (env : ExternalEnv K T) (c : JwkClient K)
    (token : String) (now : Int) (fetches : List FetchResult) (e : JwkClientErr)
    (h : c.keys_are_stale now = true)
    (hf : (JwkClient.refresh_public_keys env c now (nextFetch fetches).1).1 = .error e) :
    JwkClient.validate_token env c token now fetches =
      ⟨.error e, c, (nextFetch fetches).2, [.proactive false]⟩ := by
  rcases hnf : nextFetch fetches with ⟨f, rest⟩
  rcases hr : JwkClient.refresh_public_keys env c now f with ⟨r, c1⟩
  rw [hnf] at hf; rw [hr] at hf
  simp only at hf
  subst hf
  have hframe : c1 = c := by
    have := refresh_error_frame env c now f e (by rw [hr])
    rw [hr] at this; exact this
  simp [JwkClient.validate_token, h, hnf, hr, hframe]

theorem validate_stale_ok {K T : Type} (env : ExternalEnv K T) (c c1 : JwkClient K)
    (token : String) (now : Int) (fetches : List FetchResult)
    (h : c.keys_are_stale now = true)
    (hf : JwkClient.refresh_public_keys env c now (nextFetch fetches).1 = (.ok (), c1)) :
    JwkClient.validate_token env c token now fetches =
      validate_token_body env c1 token now (nextFetch fetches).2 [.proactive true] := by
  rcases hnf : nextFetch fetches with ⟨f, rest⟩
  rw [hnf] at hf
  simp only at hf
  simp [JwkClient.validate_token, h, hnf, hf]

theorem can_retry_congr {K : Type} (c d : JwkClient K) (now : Int)
    (h1 : d.last_retry = c.last_retry) (h2 : d.retry_rate_limit = c.retry_rate_limit) :
    d.can_retry_on_failure now = c.can_retry_on_failure now := by
  unfold JwkClient.can_retry_on_failure
  rw [h1, h2]

theorem validate_cases {K T : Type} (env : ExternalEnv K T) (c : JwkClient K)
    (token : String) (now : Int) (fetches : List FetchResult) :
    (c.keys_are_stale now = false ∧
      JwkClient.validate_token env c token now fetches =
        validate_token_body env c token now fetches []) ∨
    (∃ e, c.keys_are_stale now = true ∧
      (JwkClient.refresh_public_keys env c now (nextFetch fetches).1).1 = .error e ∧
      JwkClient.validate_token env c token now fetches =
        ⟨.error e, c, (nextFetch fetches).2, [.proactive false]⟩) ∨
    (∃ c1, c.keys_are_stale now = true ∧
      JwkClient.refresh_public_keys env c now (nextFetch fetches).1 = (.ok (), c1) ∧
      c1.last_retry = c.last_retry ∧ c1.retry_rate_limit = c.retry_rate_limit ∧
      c1.last_refresh = some now ∧
      JwkClient.validate_token env c token now fetches =
        validate_token_body env c1 token now (nextFetch fetches).2 [.proactive true]) := by
  cases hst : c.keys_are_stale now with
  | false => exact Or.inl ⟨rfl, validate_not_stale env c token now fetches hst⟩
  | true =>
    rcases hr : JwkClient.refresh_public_keys env c now (nextFetch fetches).1 with ⟨r, c1⟩
    cases r with
    | error e =>
      refine Or.inr (Or.inl ⟨e, rfl, rfl, ?_⟩)
      exact validate_stale_fail env c token now fetches e hst (by rw [hr])
    | ok u =>
      cases u
      have hpres := refresh_preserves env c now (nextFetch fetches).1
      rw [hr] at hpres
      obtain ⟨keys, pairs, hk, hbp, hshape⟩ :=
        refresh_ok_shape env c now (nextFetch fetches).1 () (by rw [hr])
      rw [hr] at hshape
      have hc1 : c1 = { c with public_keys := toKeyMap pairs, last_refresh := some now } :=
        hshape
      refine Or.inr (Or.inr ⟨c1, rfl, rfl, hpres.1, hpres.2.1, ?_, ?_⟩)
      · rw [hc1]
      · exact validate_stale_ok env c c1 token now fetches hst (by rw [hr])

theorem body_no_retry {K T : Type} (env : ExternalEnv K T) (c : JwkClient K)
    (token : String) (now : Int) (fetches : List FetchResult) (evs0 : List VEvent)
    (hcr : c.can_retry_on_failure now = false) :
    validate_token_body env c token now fetches evs0 =
      ⟨JwkClient.validate_token_impl env c token now, c, fetches,
        evs0 ++ [.attempt (exceptOk (JwkClient.validate_token_impl env c token now))]⟩ := by
  rcases body_cases env c token now fetches evs0 with
    ⟨v, himpl, heq⟩ | ⟨e0, himpl, hcr2, heq⟩ | ⟨e0, e, himpl, hcr2, _, _⟩ |
    ⟨e0, c2, himpl, hcr2, _, _⟩
  · rw [heq, himpl]; simp [exceptOk]
  · rw [heq, himpl]; simp [exceptOk]
  · rw [hcr2] at hcr; cases hcr
  · rw [hcr2] at hcr; cases hcr

theorem body_reactive_true {K T : Type} (env : ExternalEnv K T) (c : JwkClient K)
    (token : String) (now : Int) (fetches : List FetchResult) (evs0 : List VEvent)
    (h : VEvent.reactive true ∈ (validate_token_body env c token now fetches evs0).trace)
    (h0 : VEvent.reactive true ∉ evs0) :
    (validate_token_body env c token now fetches evs0).client.last_retry = some now ∧
    (validate_token_body env c token now fetches evs0).client.last_refresh = some now ∧
    (validate_token_body env c token now fetches evs0).client.retry_rate_limit =
      c.retry_rate_limit := by
  rcases body_cases env c token now fetches evs0 with
    ⟨v, himpl, heq⟩ | ⟨e0, himpl, hcr2, heq⟩ | ⟨e0, e, himpl, hcr2, hrf, heq⟩ |
    ⟨e0, c2, himpl, hcr2, hrf, heq⟩
  · rw [heq] at h; simp [List.mem_append] at h; exact absurd h h0
  · rw [heq] at h; simp [List.mem_append] at h; exact absurd h h0
  · rw [heq] at h; simp [List.mem_append] at h; exact absurd h h0
  · have hpres := refresh_preserves env c now (nextFetch fetches).1
    rw [hrf] at hpres
    obtain ⟨keys, pairs, hk, hbp, hshape⟩ :=
      refresh_ok_shape env c now (nextFetch fetches).1 () (by rw [hrf])
    rw [hrf] at hshape
    have hc2 : c2 = { c with public_keys := toKeyMap pairs, last_refresh := some now } :=
      hshape
    rw [heq]
    refine ⟨rfl, ?_, ?_⟩
    · show c2.last_refresh = some now
      rw [hc2]
    · show c2.retry_rate_limit = c.retry_rate_limit
      rw [hc2]

theorem body_no_reactive_true {K T : Type} (env : ExternalEnv K T) (c : JwkClient K)
    (token : String) (now : Int) (fetches : List FetchResult) (evs0 : List VEvent)
    (h : VEvent.reactive true ∉ (validate_token_body env c token now fetches evs0).trace) :
    (validate_token_body env c token now fetches evs0).client.last_retry =
      c.last_retry := by
  rcases body_cases env c token now fetches evs0 with
    ⟨v, himpl, heq⟩ | ⟨e0, himpl, hcr2, heq⟩ | ⟨e0, e, himpl, hcr2, hrf, heq⟩ |
    ⟨e0, c2, himpl, hcr2, hrf, heq⟩
  · rw [heq]
  · rw [heq]
  · rw [heq]
  · rw [heq] at h; simp [List.mem_append] at h

theorem validate_reactive_true {K T : Type} (env : ExternalEnv K T) (c : JwkClient K)
    (token : String) (now : Int) (fetches : List FetchResult)
    (h : VEvent.reactive true ∈ (JwkClient.validate_token env c token now fetches).trace) :
    (JwkClient.validate_token env c token now fetches).client.last_retry = some now ∧
    (JwkClient.validate_token env c token now fetches).client.last_refresh = some now ∧
    (JwkClient.validate_token env c token now fetches).client.retry_rate_limit =
      c.retry_rate_limit := by
  rcases validate_cases env c token now fetches with
    ⟨hst, heq⟩ | ⟨e, hst, hf, heq⟩ | ⟨c1, hst, hok, hlr, hrl, hlf, heq⟩
  · rw [heq] at h ⊢
    exact body_reactive_true env c token now fetches [] h (by simp)
  · rw [heq] at h; simp at h
  · rw [heq] at h ⊢
    have hb := body_reactive_true env c1 token now (nextFetch fetches).2
      [.proactive true] h (by simp)
    exact ⟨hb.1, hb.2.1, hb.2.2.trans hrl⟩

theorem validate_no_reactive_true {K T : Type} (env : ExternalEnv K T) (c : JwkClient K)
    (token : String) (now : Int) (fetches : List FetchResult)
    (h : VEvent.reactive true ∉ (JwkClient.validate_token env c token now fetches).trace) :
    (JwkClient.validate_token env c token now fetches).client.last_retry =
      c.last_retry := by
  rcases validate_cases env c token now fetches with
    ⟨hst, heq⟩ | ⟨e, hst, hf, heq⟩ | ⟨c1, hst, hok, hlr, hrl, hlf, heq⟩
  · rw [heq] at h ⊢
    exact body_no_reactive_true env c token now fetches [] h
  · rw [heq]
  · rw [heq] at h ⊢
    exact (body_no_reactive_true env c1 token now (nextFetch fetches).2
      [.proactive true] h).trans hlr

theorem validate_no_retry {K T : Type} (env : ExternalEnv K T) (c : JwkClient K)
    (token : String) (now : Int) (fetches : List FetchResult)
    (hcr : c.can_retry_on_failure now = false) :
    countReactive (JwkClient.validate_token env c token now fetches).trace = 0 ∧
    (1 ≤ countAttempts (JwkClient.validate_token env c token now fetches).trace →
      (JwkClient.validate_token env c token now fetches).result =
        JwkClient.validate_token_impl env
          (JwkClient.validate_token env c token now fetches).client token now) := by
  rcases validate_cases env c token now fetches with
    ⟨hst, heq⟩ | ⟨e, hst, hf, heq⟩ | ⟨c1, hst, hok, hlr, hrl, hlf, heq⟩
  · rw [heq, body_no_retry env c token now fetches [] hcr]
    exact ⟨by simp [countReactive], fun _ => rfl⟩
  · rw [heq]
    exact ⟨by simp [countReactive], fun hk => absurd hk (by simp [countAttempts])⟩
  · have hcr1 : c1.can_retry_on_failure now = false :=
      (can_retry_congr c c1 now hlr hrl).trans hcr
    rw [heq, body_no_retry env c1 token now (nextFetch fetches).2 [.proactive true] hcr1]
    exact ⟨by simp [countReactive], fun _ => rfl⟩

theorem countProactive_append (a b : List VEvent) :
    countProactive (a ++ b) = countProactive a + countProactive b := by
  simp [countProactive, List.filter_append]

theorem countReactive_append (a b : List VEvent) :
    countReactive (a ++ b) = countReactive a + countReactive b := by
  simp [countReactive, List.filter_append]

theorem countAttempts_append (a b : List VEvent) :
    countAttempts (a ++ b) = countAttempts a + countAttempts b := by
  simp [countAttempts, List.filter_append]

theorem body_facts {K T : Type} (env : ExternalEnv K T) (c : JwkClient K)
    (token : String) (now : Int) (fetches : List FetchResult) (evs0 : List VEvent) :
    (∃ tail, (validate_token_body env c token now fetches evs0).trace = evs0 ++ tail ∧
      countProactive tail = 0 ∧ countReactive tail ≤ 1 ∧
      1 ≤ countAttempts tail ∧ countAttempts tail ≤ 2) ∧
    (VEvent.reactive false ∉ (validate_token_body env c token now fetches evs0).trace →
      (validate_token_body env c token now fetches evs0).result =
        JwkClient.validate_token_impl env
          (validate_token_body env c token now fetches evs0).client token now) := by
  rcases body_cases env c token now fetches evs0 with
    ⟨v, himpl, heq⟩ | ⟨e0, himpl, hcr2, heq⟩ | ⟨e0, e, himpl, hcr2, hrf, heq⟩ |
    ⟨e0, c2, himpl, hcr2, hrf, heq⟩
  · rw [heq]
    exact ⟨⟨[.attempt true], rfl, by decide, by decide, by decide, by decide⟩,
      fun _ => himpl.symm⟩
  · rw [heq]
    exact ⟨⟨[.attempt false], rfl, by decide, by decide, by decide, by decide⟩,
      fun _ => himpl.symm⟩
  · rw [heq]
    refine ⟨⟨[.attempt false, .reactive false], rfl, by decide, by decide, by decide,
      by decide⟩, fun h => ?_⟩
    simp [List.mem_append] at h
  · rw [heq]
    refine ⟨⟨[.attempt false, .reactive true,
      .attempt (exceptOk (JwkClient.validate_token_impl env
        { c2 with last_retry := some now } token now))], rfl, ?_, ?_, ?_, ?_⟩,
      fun _ => rfl⟩
    all_goals simp [countProactive, countReactive, countAttempts]

/-! ## Claims -/

/-- C1, counterexample: the claim "a reactive (step-3) refresh leaves the
proactive staleness timestamp (`last_refresh`) unchanged" is false on the
code. At this concrete input the call performs no proactive refresh and one
successful reactive refresh, yet `last_refresh` changes from `some 0` to
`some 10`, because `refresh_public_keys` stamps `last_refresh` on every
success, reactive invocations included. -/
theorem reactive_refresh_changes_last_refresh_cex :
    countProactive (JwkClient.validate_token testEnv c1ex "t1" 10
      [Except.ok []]).trace = 0 ∧
    VEvent.reactive true ∈ (JwkClient.validate_token testEnv c1ex "t1" 10
      [Except.ok []]).trace ∧
    c1ex.last_refresh = some 0 ∧
    (JwkClient.validate_token testEnv c1ex "t1" 10 [Except.ok []]).client.last_refresh =
      some 10 := by
  decide

/-- C1, amended: for every validate call, a proactive (step-1) refresh does
leave the reactive cooldown timestamp `last_retry` unchanged (any call with
no successful reactive refresh does), but a reactive (step-3) refresh does
not leave `last_refresh` unchanged: a successful reactive refresh sets both
`last_retry` and `last_refresh` to the current instant. -/
theorem refresh_timestamp_update_rule {K T : Type} (env : ExternalEnv K T)
    (c : JwkClient K) (token : String) (now : Int) (fetches : List FetchResult) :
    (VEvent.reactive true ∉ (JwkClient.validate_token env c token now fetches).trace →
      (JwkClient.validate_token env c token now fetches).client.last_retry =
        c.last_retry) ∧
    (VEvent.reactive true ∈ (JwkClient.validate_token env c token now fetches).trace →
      (JwkClient.validate_token env c token now fetches).client.last_retry = some now ∧
      (JwkClient.validate_token env c token now fetches).client.last_refresh = some now) :=
  ⟨fun h => validate_no_reactive_true env c token now fetches h,
   fun h => ⟨(validate_reactive_true env c token now fetches h).1,
             (validate_reactive_true env c token now fetches h).2.1⟩⟩

theorem refresh_timestamp_update_rule_witness :
    (JwkClient.validate_token testEnv c1ex "t1" 10 [Except.ok []]).client.last_retry =
      some 10 :=
  ((refresh_timestamp_update_rule testEnv c1ex "t1" 10 [Except.ok []]).2 (by decide)).1

/-- C2: refresh is all-or-nothing. A `refresh_public_keys` invocation that
fails — transport/document error, or any single key whose material fails to
construct — returns the client exactly unchanged (key map and both
timestamps included); the key map is replaced and `last_refresh` updated
only when every key in the fetched document parses, and even then
`last_retry` is untouched. -/
theorem refresh_all_or_nothing {K T : Type} (env : ExternalEnv K T) (c : JwkClient K)
    (now : Int) (f : FetchResult) :
    (∀ e, (JwkClient.refresh_public_keys env c now f).1 = .error e →
      (JwkClient.refresh_public_keys env c now f).2 = c) ∧
    (∀ u, (JwkClient.refresh_public_keys env c now f).1 = .ok u →
      ∃ keys pairs, f = .ok keys ∧ buildPublicKeys env keys = .ok pairs ∧
        (JwkClient.refresh_public_keys env c now f).2 =
          { c with public_keys := toKeyMap pairs, last_refresh := some now }) :=
  ⟨fun e h => refresh_error_frame env c now f e h,
   fun u h => refresh_ok_shape env c now f u h⟩

theorem refresh_all_or_nothing_witness :
    (JwkClient.refresh_public_keys testEnv c1ex 5 (Except.error "down")).2 = c1ex :=
  (refresh_all_or_nothing testEnv c1ex 5 (Except.error "down")).1
    (.ConnectionError "down") rfl

/-- C3: every validate call performs at most one reactive refresh and at
most two verification attempts, and the returned result is the outcome of
whichever attempt ran last: whenever at least one attempt ran and the call
was not cut short by a failing reactive refresh, re-running the attempt on
the returned client reproduces the returned result — the first attempt's
result when no retry ran (first attempt succeeded or retry not eligible),
the retry's result, whatever its outcome, when the retry ran. -/
theorem single_retry_and_last_result {K T : Type} (env : ExternalEnv K T)
    (c : JwkClient K) (token : String) (now : Int) (fetches : List FetchResult) :
    countReactive (JwkClient.validate_token env c token now fetches).trace ≤ 1 ∧
    countAttempts (JwkClient.validate_token env c token now fetches).trace ≤ 2 ∧
    (VEvent.reactive false ∉ (JwkClient.validate_token env c token now fetches).trace →
      1 ≤ countAttempts (JwkClient.validate_token env c token now fetches).trace →
      (JwkClient.validate_token env c token now fetches).result =
        JwkClient.validate_token_impl env
          (JwkClient.validate_token env c token now fetches).client token now) := by
  rcases validate_cases env c token now fetches with
    ⟨hst, heq⟩ | ⟨e, hst, hf, heq⟩ | ⟨c1, hst, hok, hlr, hrl, hlf, heq⟩
  · rw [heq]
    obtain ⟨⟨tail, htr, hp, hr1, ha1, ha2⟩, hres⟩ :=
      body_facts env c token now fetches []
    rw [htr] at hres ⊢
    simp only [List.nil_append]
    exact ⟨hr1, ha2, fun h _ => hres (by simpa using h)⟩
  · rw [heq]
    refine ⟨?_, ?_, fun h hk => absurd hk ?_⟩ <;>
      simp [countReactive, countAttempts]
  · rw [heq]
    obtain ⟨⟨tail, htr, hp, hr1, ha1, ha2⟩, hres⟩ :=
      body_facts env c1 token now (nextFetch fetches).2 [.proactive true]
    rw [htr] at hres ⊢
    rw [countReactive_append, countAttempts_append]
    refine ⟨?_, ?_, fun h _ => hres h⟩
    · simpa [countReactive] using hr1
    · simpa [countAttempts] using ha2

/-- C4: reactive retries are rate-limited by the cooldown.
`can_retry_on_failure` is true iff no reactive refresh ever happened or
now − last_retry strictly exceeds the cooldown; consequently, after a call
whose reactive refresh succeeded at `t1`, a second call at `t2` with
t2 − t1 ≤ cooldown performs no reactive refresh at all and, whenever it
attempted verification, returns that first attempt's own result. -/
theorem retry_cooldown_limits_reactive_refresh {K T : Type} (env : ExternalEnv K T)
    (c : JwkClient K) (tok1 tok2 : String) (t1 t2 : Int) (fetches : List FetchResult)
    (h1 : VEvent.reactive true ∈ (JwkClient.validate_token env c tok1 t1 fetches).trace)
    (h2 : t2 - t1 ≤ c.retry_rate_limit) :
    (∀ (d : JwkClient K) (t : Int), d.can_retry_on_failure t = true ↔
      (d.last_retry = none ∨
        ∃ u, d.last_retry = some u ∧ t - u > d.retry_rate_limit)) ∧
    (JwkClient.validate_token env c tok1 t1 fetches).client.last_retry = some t1 ∧
    countReactive (JwkClient.validate_token env
      (JwkClient.validate_token env c tok1 t1 fetches).client tok2 t2
      (JwkClient.validate_token env c tok1 t1 fetches).fetches).trace = 0 ∧
    (1 ≤ countAttempts (JwkClient.validate_token env
        (JwkClient.validate_token env c tok1 t1 fetches).client tok2 t2
        (JwkClient.validate_token env c tok1 t1 fetches).fetches).trace →
      (JwkClient.validate_token env
        (JwkClient.validate_token env c tok1 t1 fetches).client tok2 t2
        (JwkClient.validate_token env c tok1 t1 fetches).fetches).result =
      JwkClient.validate_token_impl env
        (JwkClient.validate_token env
          (JwkClient.validate_token env c tok1 t1 fetches).client tok2 t2
          (JwkClient.validate_token env c tok1 t1 fetches).fetches).client tok2 t2) := by
  have hform : ∀ (d : JwkClient K) (t : Int), d.can_retry_on_failure t = true ↔
      (d.last_retry = none ∨
        ∃ u, d.last_retry = some u ∧ t - u > d.retry_rate_limit) := by
    intro d t
    unfold JwkClient.can_retry_on_failure
    cases hl : d.last_retry with
    | none => simp
    | some u => simp
  have hfacts := validate_reactive_true env c tok1 t1 fetches h1
  have hcr2 : (JwkClient.validate_token env c tok1 t1 fetches).client.can_retry_on_failure
      t2 = false := by
    unfold JwkClient.can_retry_on_failure
    rw [hfacts.1, hfacts.2.2]
    simp
    omega
  have hnr := validate_no_retry env
    (JwkClient.validate_token env c tok1 t1 fetches).client tok2 t2
    (JwkClient.validate_token env c tok1 t1 fetches).fetches hcr2
  exact ⟨hform, hfacts.1, hnr.1, hnr.2⟩

/-- C5: staleness is decided exactly by the formula — `keys_are_stale` is
true iff no proactive refresh ever happened or now − last_refresh strictly
exceeds the configured interval; with a 3600-second interval and a cache
last refreshed at `t0`, a call at t0+3540 (59 minutes) performs no
proactive refresh, and a call at t0+3660 (61 minutes) performs exactly one,
as the first recorded step of the call, before any verification attempt. -/
theorem staleness_formula_and_cadence {K T : Type} (env : ExternalEnv K T)
    (c : JwkClient K) (token : String) (t0 : Int) (fetches : List FetchResult)
    (hint : c.auto_refresh_interval = 3600) (hlr : c.last_refresh = some t0) :
    (∀ (d : JwkClient K) (t : Int), d.keys_are_stale t = true ↔
      (d.last_refresh = none ∨
        ∃ u, d.last_refresh = some u ∧ t - u > d.auto_refresh_interval)) ∧
    countProactive (JwkClient.validate_token env c token (t0 + 3540) fetches).trace = 0 ∧
    (∃ b rest,
      (JwkClient.validate_token env c token (t0 + 3660) fetches).trace =
        .proactive b :: rest ∧ countProactive rest = 0) := by
  refine ⟨?_, ?_, ?_⟩
  · intro d t
    unfold JwkClient.keys_are_stale
    cases hl : d.last_refresh with
    | none => simp
    | some u => simp
  · have hst : c.keys_are_stale (t0 + 3540) = false := by
      unfold JwkClient.keys_are_stale
      rw [hlr, hint]
      simp
    rw [validate_not_stale env c token (t0 + 3540) fetches hst]
    obtain ⟨⟨tail, htr, hp, _, _, _⟩, _⟩ :=
      body_facts env c token (t0 + 3540) fetches []
    rw [htr, List.nil_append]
    exact hp
  · have hst : c.keys_are_stale (t0 + 3660) = true := by
      unfold JwkClient.keys_are_stale
      rw [hlr, hint]
      simp
    rcases hr : JwkClient.refresh_public_keys env c (t0 + 3660) (nextFetch fetches).1
      with ⟨r, c1⟩
    cases r with
    | error e =>
      rw [validate_stale_fail env c token (t0 + 3660) fetches e hst (by rw [hr])]
      exact ⟨false, [], rfl, rfl⟩
    | ok u =>
      cases u
      rw [validate_stale_ok env c c1 token (t0 + 3660) fetches hst (by rw [hr])]
      obtain ⟨⟨tail, htr, hp, _, _, _⟩, _⟩ :=
        body_facts env c1 token (t0 + 3660) (nextFetch fetches).2 [.proactive true]
      exact ⟨true, tail, by rw [htr]; rfl, hp⟩

theorem single_retry_and_last_result_witness :
    (JwkClient.validate_token testEnv c1ex "t1" 10 [Except.ok []]).result =
      .error unknownKidErr := by
  have h := (single_retry_and_last_result testEnv c1ex "t1" 10 [Except.ok []]).2.2
    (by decide) (by decide)
  rw [h]
  decide

theorem retry_cooldown_limits_reactive_refresh_witness :
    countReactive (JwkClient.validate_token testEnv
      (JwkClient.validate_token testEnv c1ex "t1" 10 [Except.ok []]).client "t1" 70
      (JwkClient.validate_token testEnv c1ex "t1" 10 [Except.ok []]).fetches).trace =
      0 :=
  (retry_cooldown_limits_reactive_refresh testEnv c1ex "t1" "t1" 10 70 [Except.ok []]
    (by decide) (by decide)).2.2.1

theorem staleness_formula_and_cadence_witness :
    countProactive (JwkClient.validate_token testEnv c1ex "t1" (0 + 3540)
      [Except.ok []]).trace = 0 ∧
    (∃ b rest, (JwkClient.validate_token testEnv c1ex "t1" (0 + 3660)
      [Except.ok []]).trace = .proactive b :: rest ∧ countProactive rest = 0) :=
  ⟨(staleness_formula_and_cadence testEnv c1ex "t1" 0 [Except.ok []] rfl rfl).2.1,
   (staleness_formula_and_cadence testEnv c1ex "t1" 0 [Except.ok []] rfl rfl).2.2⟩

/-- C6: key lookup enforces the activation window and is side-effect free.
`get_valid_key` returns a key iff an entry exists under the key id and its
`not_before` is absent or at-or-before `now`; an entry whose activation
instant is in the future yields nothing, and once that instant has elapsed
the identical cached entry (the very same, unmutated client) returns its
key, with no refresh involved — `get_valid_key` is a pure function of the
client, key id and instant. -/
theorem lookup_valid_activation_window {K : Type} (c : JwkClient K)
    (key_id : String) (now : Int) :
    (∀ k, c.get_valid_key key_id now = some k ↔
      ∃ pk, assocGet c.public_keys key_id = some pk ∧ pk.key = k ∧
        (pk.not_before = none ∨ ∃ nbf, pk.not_before = some nbf ∧ nbf ≤ now)) ∧
    (∀ pk nbf, assocGet c.public_keys key_id = some pk → pk.not_before = some nbf →
      ((now < nbf → c.get_valid_key key_id now = none) ∧
       (∀ later : Int, nbf ≤ later → c.get_valid_key key_id later = some pk.key))) := by
  constructor
  · intro k
    unfold JwkClient.get_valid_key
    cases hg : assocGet c.public_keys key_id with
    | none => simp
    | some pk =>
      unfold PublicKey.valid_key PublicKey.is_valid
      cases hnb : pk.not_before with
      | none => simp [hnb]
      | some nbf =>
        by_cases hle : nbf ≤ now
        · simp [hnb, hle]
        · simp [hnb, hle]
  · intro pk nbf hg hnb
    constructor
    · intro hlt
      simp [JwkClient.get_valid_key, PublicKey.valid_key, PublicKey.is_valid,
        hg, hnb]
      omega
    · intro later hle
      simp [JwkClient.get_valid_key, PublicKey.valid_key, PublicKey.is_valid,
        hg, hnb, hle]

theorem lookup_valid_activation_window_witness :
    cWin.get_valid_key "k1" 50 = none ∧ cWin.get_valid_key "k1" 100 = some 7 :=
  ⟨((lookup_valid_activation_window cWin "k1" 50).2 kFuture 100 rfl rfl).1 (by decide),
   ((lookup_valid_activation_window cWin "k1" 100).2 kFuture 100 rfl rfl).2 100
     (by decide)⟩

/-- C7: when the keys are stale and the mandatory step-1 proactive refresh
fails, `validate_token` returns that refresh error immediately: the client
is unchanged (no fallback to, or loss of, the stale cached keys), the trace
records only the failed proactive refresh — so no verification attempt (no
token decoding, key lookup or signature verification) and no reactive
refresh took place. -/
theorem stale_refresh_failure_is_fatal {K T : Type} (env : ExternalEnv K T)
    (c : JwkClient K) (token : String) (now : Int) (fetches : List FetchResult)
    (e : JwkClientErr)
    (hstale : c.keys_are_stale now = true)
    (hfail : (JwkClient.refresh_public_keys env c now (nextFetch fetches).1).1 =
      .error e) :
    JwkClient.validate_token env c token now fetches =
      ⟨.error e, c, (nextFetch fetches).2, [.proactive false]⟩ ∧
    countAttempts [VEvent.proactive false] = 0 ∧
    countReactive [VEvent.proactive false] = 0 :=
  ⟨validate_stale_fail env c token now fetches e hstale hfail, by decide, by decide⟩

theorem stale_refresh_failure_is_fatal_witness :
    JwkClient.validate_token testEnv cStale "t1" 5 [Except.error "down"] =
      ⟨.error (.ConnectionError "down"), cStale, [], [.proactive false]⟩ :=
  (stale_refresh_failure_is_fatal testEnv cStale "t1" 5 [Except.error "down"]
    (.ConnectionError "down") rfl rfl).1

/-- C8: the reactive retry is triggered by any first-attempt failure kind.
Over `validate_token_body` — the embedding of lines 143–152, which every
`validate_token` call reaches as shown by the last two conjuncts — whenever
the first attempt fails for any reason (`e0` is arbitrary, the missing-kid
error included) and the cooldown permits, exactly one more refresh runs
and, it having succeeded, the reactive timestamp is recorded
(`last_retry := now` on the returned client) and the full attempt (key-id
extraction, lookup, verification) is repeated exactly once, its outcome
becoming the result; for a token lacking a key id the retry fails
identically with the missing-kid error. -/
theorem any_failure_triggers_single_retry {K T : Type} (env : ExternalEnv K T)
    (c c2 : JwkClient K) (token : String) (now : Int) (fetches : List FetchResult)
    (evs0 : List VEvent) (e0 : JwkClientErr)
    (himpl : JwkClient.validate_token_impl env c token now = .error e0)
    (hcr : c.can_retry_on_failure now = true)
    (hok : JwkClient.refresh_public_keys env c now (nextFetch fetches).1 =
      (.ok (), c2)) :
    validate_token_body env c token now fetches evs0 =
      ⟨JwkClient.validate_token_impl env { c2 with last_retry := some now } token now,
       { c2 with last_retry := some now }, (nextFetch fetches).2,
       evs0 ++ [.attempt false, .reactive true,
         .attempt (exceptOk (JwkClient.validate_token_impl env
           { c2 with last_retry := some now } token now))]⟩ ∧
    (env.decode_metadata token = .ok none →
      e0 = missingKidErr ∧
      JwkClient.validate_token_impl env { c2 with last_retry := some now } token now =
        .error missingKidErr) ∧
    (∀ (d : JwkClient K) (fs : List FetchResult), d.keys_are_stale now = false →
      JwkClient.validate_token env d token now fs =
        validate_token_body env d token now fs []) ∧
    (∀ (d d1 : JwkClient K) (fs : List FetchResult), d.keys_are_stale now = true →
      JwkClient.refresh_public_keys env d now (nextFetch fs).1 = (.ok (), d1) →
      JwkClient.validate_token env d token now fs =
        validate_token_body env d1 token now (nextFetch fs).2 [.proactive true]) := by
  refine ⟨?_, ?_, ?_, ?_⟩
  · rcases body_cases env c token now fetches evs0 with
      ⟨v, himpl2, heq⟩ | ⟨e0', himpl2, hcr2, heq⟩ | ⟨e0', e', himpl2, hcr2, hf2, heq⟩ |
      ⟨e0', c2', himpl2, hcr2, hok2, heq⟩
    · rw [himpl] at himpl2; cases himpl2
    · rw [hcr] at hcr2; cases hcr2
    · rw [hok] at hf2; cases hf2
    · rw [hok] at hok2
      have hc2 : c2' = c2 := (Prod.mk.injEq _ _ _ _ ▸ hok2.symm).2
      rw [hc2] at heq
      exact heq
  · intro hdn
    have hmiss : JwkClient.validate_token_impl env c token now = .error missingKidErr := by
      unfold JwkClient.validate_token_impl
      rw [hdn]
    have he0 : e0 = missingKidErr := by
      rw [himpl] at hmiss
      exact (Except.error.inj hmiss)
    refine ⟨he0, ?_⟩
    unfold JwkClient.validate_token_impl
    rw [hdn]
  · intro d fs h
    exact validate_not_stale env d token now fs h
  · intro d d1 fs h hok1
    exact validate_stale_ok env d d1 token now fs h hok1

theorem any_failure_triggers_single_retry_witness :
    validate_token_body testEnv c1ex "nokid" 10 [Except.ok []] [] =
      ⟨.error missingKidErr,
       { c1ex with last_refresh := some 10, last_retry := some 10 },
       [], [.attempt false, .reactive true, .attempt false]⟩ := by
  have h := any_failure_triggers_single_retry testEnv c1ex
    { c1ex with last_refresh := some 10 } "nokid" 10 [Except.ok []] []
    missingKidErr rfl rfl rfl
  have h2 := (h.2.1 rfl).2
  rw [h.1, h2]
  rfl

/-- C9: the two lookup-stage defects of one verification attempt carry the
two distinct typed error values built at lines 172 and 175: the attempt
returns the missing-kid error iff the decoded metadata carries no key id,
and the unknown-or-inactive-key error iff a key id is present but
`get_valid_key` returns nothing (an absent entry or a not-yet-activated
one); external verification is invoked exactly when a valid key is found,
its lifted outcome then being the attempt's result. -/
theorem attempt_error_taxonomy {K T : Type} (env : ExternalEnv K T) (c : JwkClient K)
    (token : String) (now : Int) :
    missingKidErr ≠ unknownKidErr ∧
    (JwkClient.validate_token_impl env c token now = .error missingKidErr ↔
      env.decode_metadata token = .ok none) ∧
    (JwkClient.validate_token_impl env c token now = .error unknownKidErr ↔
      ∃ kid, env.decode_metadata token = .ok (some kid) ∧
        c.get_valid_key kid now = none) ∧
    (∀ kid key, env.decode_metadata token = .ok (some kid) →
      c.get_valid_key kid now = some key →
      JwkClient.validate_token_impl env c token now =
        liftJwt (env.verify_token key token c.issuer c.audience)) := by
  have hne : missingKidErr ≠ unknownKidErr := by decide
  refine ⟨hne, ?_, ?_, ?_⟩
  · cases hd : env.decode_metadata token with
    | error e =>
      simp [JwkClient.validate_token_impl, hd, missingKidErr]
    | ok okid =>
      cases okid with
      | none => simp [JwkClient.validate_token_impl, hd]
      | some kid0 =>
        cases hg : c.get_valid_key kid0 now with
        | none => simp [JwkClient.validate_token_impl, hd, hg, hne.symm]
        | some key =>
          cases hv : env.verify_token key token c.issuer c.audience with
          | error e =>
            simp [JwkClient.validate_token_impl, hd, hg, hv, liftJwt, missingKidErr]
          | ok v => simp [JwkClient.validate_token_impl, hd, hg, hv, liftJwt]
  · cases hd : env.decode_metadata token with
    | error e =>
      simp [JwkClient.validate_token_impl, hd, unknownKidErr]
    | ok okid =>
      cases okid with
      | none => simp [JwkClient.validate_token_impl, hd, hne]
      | some kid0 =>
        cases hg : c.get_valid_key kid0 now with
        | none => simp [JwkClient.validate_token_impl, hd, hg]
        | some key =>
          cases hv : env.verify_token key token c.issuer c.audience with
          | error e =>
            simp [JwkClient.validate_token_impl, hd, hg, hv, liftJwt, unknownKidErr]
          | ok v => simp [JwkClient.validate_token_impl, hd, hg, hv, liftJwt]
  · intro kid key hk hg
    simp [JwkClient.validate_token_impl, hk, hg]

theorem attempt_error_taxonomy_witness :
    JwkClient.validate_token_impl testEnv c1ex "nokid" 0 = .error missingKidErr :=
  (attempt_error_taxonomy testEnv c1ex "nokid" 0).2.1.mpr rfl

/-- C10 (implicit): when the reactive refresh performed in the retry step
itself fails, the call returns that refresh error — not the original
verification failure `e0` that triggered the retry — exactly one
verification attempt is recorded (no second attempt), and the client, in
particular `last_retry`, is unchanged, so the next failing call is
retry-eligible under the same cooldown baseline. Stated over
`validate_token_body` (lines 143–152), with the bridges showing every
`validate_token` call reaches it. -/
theorem reactive_refresh_failure_propagates {K T : Type} (env : ExternalEnv K T)
    (c : JwkClient K) (token : String) (now : Int) (fetches : List FetchResult)
    (evs0 : List VEvent) (e0 e : JwkClientErr)
    (himpl : JwkClient.validate_token_impl env c token now = .error e0)
    (hcr : c.can_retry_on_failure now = true)
    (hfail : (JwkClient.refresh_public_keys env c now (nextFetch fetches).1).1 =
      .error e) :
    validate_token_body env c token now fetches evs0 =
      ⟨.error e, c, (nextFetch fetches).2, evs0 ++ [.attempt false, .reactive false]⟩ ∧
    countAttempts (evs0 ++ [VEvent.attempt false, VEvent.reactive false]) =
      countAttempts evs0 + 1 ∧
    (∀ (d : JwkClient K) (fs : List FetchResult), d.keys_are_stale now = false →
      JwkClient.validate_token env d token now fs =
        validate_token_body env d token now fs []) ∧
    (∀ (d d1 : JwkClient K) (fs : List FetchResult), d.keys_are_stale now = true →
      JwkClient.refresh_public_keys env d now (nextFetch fs).1 = (.ok (), d1) →
      JwkClient.validate_token env d token now fs =
        validate_token_body env d1 token now (nextFetch fs).2 [.proactive true]) := by
  refine ⟨?_, ?_, ?_, ?_⟩
  · rcases body_cases env c token now fetches evs0 with
      ⟨v, himpl2, heq⟩ | ⟨e0', himpl2, hcr2, heq⟩ | ⟨e0', e', himpl2, hcr2, hf2, heq⟩ |
      ⟨e0', c2', himpl2, hcr2, hok2, heq⟩
    · rw [himpl] at himpl2; cases himpl2
    · rw [hcr] at hcr2; cases hcr2
    · rw [hfail] at hf2
      have he : e' = e := Except.error.inj hf2.symm
      rw [he] at heq
      exact heq
    · rw [hok2] at hfail; cases hfail
  · rw [countAttempts_append]
    simp [countAttempts]
  · intro d fs h
    exact validate_not_stale env d token now fs h
  · intro d d1 fs h hok1
    exact validate_stale_ok env d d1 token now fs h hok1

theorem reactive_refresh_failure_propagates_witness :
    validate_token_body testEnv c1ex "t1" 10 [Except.error "down"] [] =
      ⟨.error (.ConnectionError "down"), c1ex, [],
       [.attempt false, .reactive false]⟩ :=
  (reactive_refresh_failure_propagates testEnv c1ex "t1" 10 [Except.error "down"] []
    unknownKidErr (.ConnectionError "down") rfl rfl rfl).1

end JwkBox
